import Mathlib

/-!
Shallow embedding of the authorization subsystem of the reprime backend:
the permission cache (src/auth/cache.rs), the OpenFGA client protocol
(src/auth/openfga.rs) and the JWT service (src/auth/jwt.rs).

Time is modelled as a natural number of clock ticks; every operation that
reads the clock takes the current instant as an explicit argument.
-/

/-- Application error type (src/errors.rs). Only the variants produced by the
auth subsystem are modelled; the Authentication variant is the one src/auth
uses for token and header failures. -/
inductive AppError where
  | Internal (msg : String)
  | Authentication (msg : String)
  deriving Repr, DecidableEq

/-- Cache entry with expiration (CacheEntry in src/auth/cache.rs). -/
structure CacheEntry where
  value : Bool
  expires_at : Nat
  deriving Repr, DecidableEq

/-- CacheEntry::new: the entry expires at the creation instant plus the ttl. -/
def CacheEntry.new (value : Bool) (now ttl : Nat) : CacheEntry :=
  { value := value, expires_at := now + ttl }

/-- CacheEntry::is_expired: the comparison in the source is strict,
the entry is expired exactly when the current instant is past expires_at. -/
def CacheEntry.is_expired (e : CacheEntry) (now : Nat) : Bool :=
  now > e.expires_at

/-- The cache map of PermissionCache, modelled as an association list.
Insertion keeps at most one entry per key, like the HashMap it embeds. -/
abbrev Cache := List (String × CacheEntry)

namespace PermissionCache

/-- The keys of the map. -/
def keys (c : Cache) : List String := c.map Prod.fst

/-- HashMap lookup by key. -/
def lookupEntry (c : Cache) (k : String) : Option CacheEntry :=
  (c.find? (fun p => p.1 == k)).map Prod.snd

/-- HashMap::remove of a single key. -/
def eraseKey (c : Cache) (k : String) : Cache :=
  c.filter (fun p => !(p.1 == k))

/-- Removal of a collected list of keys, one HashMap::remove per key, as the
source does after collecting keys_to_remove. -/
def removeKeys (c : Cache) (ks : List String) : Cache :=
  ks.foldl eraseKey c

/-- HashMap::insert: replaces any previous entry for the key. -/
def insertEntry (c : Cache) (k : String) (e : CacheEntry) : Cache :=
  (k, e) :: eraseKey c k

/-- PermissionCache::cache_key: the four components joined with a colon. -/
def cache_key (user_id relation object_type object_id : String) : String :=
  user_id ++ ":" ++ relation ++ ":" ++ object_type ++ ":" ++ object_id

/-- PermissionCache::get: the cached answer, only if the entry is present and
not expired; a stale hit falls through to None. -/
def get (c : Cache) (now : Nat) (user_id relation object_type object_id : String) :
    Option Bool :=
  match lookupEntry c (cache_key user_id relation object_type object_id) with
  | some entry => if !(entry.is_expired now) then some entry.value else none
  | none => none

/-- PermissionCache::evict_expired: collect the expired keys, remove each. -/
def evict_expired (c : Cache) (now : Nat) : Cache :=
  removeKeys c ((c.filter (fun p => p.2.is_expired now)).map Prod.fst)

/-- PermissionCache::set_with_ttl: if the map is at or above capacity, first
purge expired entries; if still at capacity, remove the first
len - max_entries + 1 keys in map order; then insert the new entry. -/
def set_with_ttl (max_entries : Nat) (c : Cache) (now : Nat)
    (user_id relation object_type object_id : String) (allowed : Bool) (ttl : Nat) :
    Cache :=
  let key := cache_key user_id relation object_type object_id
  let entry := CacheEntry.new allowed now ttl
  let c1 :=
    if max_entries ≤ c.length then
      let c' := evict_expired c now
      if max_entries ≤ c'.length then
        removeKeys c' ((keys c').take (c'.length - max_entries + 1))
      else c'
    else c
  insertEntry c1 key entry

/-- PermissionCache::set: set_with_ttl at the configured default ttl. -/
def set (max_entries default_ttl : Nat) (c : Cache) (now : Nat)
    (user_id relation object_type object_id : String) (allowed : Bool) : Cache :=
  set_with_ttl max_entries c now user_id relation object_type object_id allowed default_ttl

/-- The suffix built by PermissionCache::invalidate_object. -/
def objSuffix (object_type object_id : String) : String :=
  ":" ++ object_type ++ ":" ++ object_id

/-- PermissionCache::invalidate_object: collect every key that ends with the
object suffix, remove each. -/
def invalidate_object (c : Cache) (object_type object_id : String) : Cache :=
  removeKeys c
    ((c.filter (fun p => p.1.endsWith (objSuffix object_type object_id))).map Prod.fst)

/-- Cache statistics record (CacheStats in src/auth/cache.rs). -/
structure CacheStats where
  total_entries : Nat
  expired_entries : Nat
  active_entries : Nat
  max_entries : Nat
  default_ttl : Nat
  deriving Repr, DecidableEq

/-- PermissionCache::stats: one snapshot of the map. -/
def stats (max_entries default_ttl : Nat) (c : Cache) (now : Nat) : CacheStats :=
  let total_entries := c.length
  let expired_entries := (c.filter (fun p => p.2.is_expired now)).length
  { total_entries := total_entries
    expired_entries := expired_entries
    active_entries := total_entries - expired_entries
    max_entries := max_entries
    default_ttl := default_ttl }

end PermissionCache

/-- One set_with_ttl call, with its own clock instant and arguments. -/
structure SetCall where
  now : Nat
  user_id : String
  relation : String
  object_type : String
  object_id : String
  allowed : Bool
  ttl : Nat
  deriving Repr

/-- Run a sequence of set_with_ttl calls against a starting cache state. -/
def runSets (max_entries : Nat) (c : Cache) (calls : List SetCall) : Cache :=
  calls.foldl
    (fun cc sc =>
      PermissionCache.set_with_ttl max_entries cc sc.now sc.user_id sc.relation
        sc.object_type sc.object_id sc.allowed sc.ttl)
    c

namespace PermissionCache

/-- The map has at most one entry per key, as a HashMap does. -/
def KeysNodup (c : Cache) : Prop := (keys c).Nodup

theorem eraseKey_sublist (c : Cache) (k : String) : (eraseKey c k).Sublist c :=
  List.filter_sublist c

theorem removeKeys_cons (c : Cache) (k : String) (ks : List String) :
    removeKeys c (k :: ks) = removeKeys (eraseKey c k) ks := rfl

theorem removeKeys_sublist (c : Cache) (ks : List String) :
    (removeKeys c ks).Sublist c := by
  induction ks generalizing c with
  | nil => exact List.Sublist.refl c
  | cons k ks ih =>
    exact (ih (eraseKey c k)).trans (eraseKey_sublist c k)

theorem keysNodup_of_sublist {c c' : Cache} (hsub : c'.Sublist c) (h : KeysNodup c) :
    KeysNodup c' :=
  List.Nodup.sublist (hsub.map Prod.fst) h

theorem not_mem_keys_eraseKey (c : Cache) (k : String) : k ∉ keys (eraseKey c k) := by
  intro hmem
  simp only [keys, eraseKey, List.mem_map, List.mem_filter, Bool.not_eq_eq_eq_not,
    Bool.not_true, beq_eq_false_iff_ne, ne_eq] at hmem
  obtain ⟨p, ⟨_, hne⟩, hk⟩ := hmem
  exact hne hk

theorem keysNodup_insertEntry (c : Cache) (k : String) (e : CacheEntry)
    (h : KeysNodup c) : KeysNodup (insertEntry c k e) := by
  unfold KeysNodup keys insertEntry
  rw [List.map_cons, List.nodup_cons]
  exact ⟨not_mem_keys_eraseKey c k, keysNodup_of_sublist (eraseKey_sublist c k) h⟩

theorem length_insertEntry_le (c : Cache) (k : String) (e : CacheEntry) :
    (insertEntry c k e).length ≤ c.length + 1 := by
  have := (eraseKey_sublist c k).length_le
  simp only [insertEntry, List.length_cons]
  omega

theorem eraseKey_eq_self_of_not_mem (c : Cache) (k : String) (h : k ∉ keys c) :
    eraseKey c k = c := by
  induction c with
  | nil => rfl
  | cons p t ih =>
    simp only [keys, List.map_cons, List.mem_cons, not_or] at h
    rw [eraseKey, List.filter_cons]
    have hpk : (!(p.1 == k)) = true := by
      simp only [Bool.not_eq_eq_eq_not, Bool.not_true, beq_eq_false_iff_ne, ne_eq]
      exact fun hh => h.1 hh.symm
    rw [if_pos hpk]
    have ht := ih h.2
    rw [eraseKey] at ht
    rw [ht]

theorem removeKeys_keys_take (c : Cache) (h : KeysNodup c) (n : Nat) :
    removeKeys c ((keys c).take n) = c.drop n := by
  induction c generalizing n with
  | nil => simp [removeKeys, keys]
  | cons p t ih =>
    cases n with
    | zero => rfl
    | succ m =>
      have hkeys : keys (p :: t) = p.1 :: keys t := rfl
      rw [hkeys, List.take_succ_cons, removeKeys_cons]
      have hnodup : (p.1 :: keys t).Nodup := h
      rw [List.nodup_cons] at hnodup
      have herase : eraseKey (p :: t) p.1 = t := by
        rw [eraseKey, List.filter_cons, if_neg (by simp)]
        have := eraseKey_eq_self_of_not_mem t p.1 hnodup.1
        rw [eraseKey] at this
        exact this
      rw [herase, ih hnodup.2 m, List.drop_succ_cons]

theorem length_evict_expired_le (c : Cache) (now : Nat) :
    (evict_expired c now).length ≤ c.length :=
  (removeKeys_sublist c _).length_le

theorem length_set_with_ttl_le (max_entries : Nat) (hmax : 1 ≤ max_entries)
    (c : Cache) (hnodup : KeysNodup c) (hlen : c.length ≤ max_entries)
    (now : Nat) (u r ot oid : String) (b : Bool) (ttl : Nat) :
    (set_with_ttl max_entries c now u r ot oid b ttl).length ≤ max_entries := by
  rw [set_with_ttl]
  by_cases hfull : max_entries ≤ c.length
  · rw [if_pos hfull]
    by_cases hfull2 : max_entries ≤ (evict_expired c now).length
    · rw [if_pos hfull2]
      have hnodup' : KeysNodup (evict_expired c now) :=
        keysNodup_of_sublist (removeKeys_sublist c _) hnodup
      rw [removeKeys_keys_take _ hnodup']
      have hle : (evict_expired c now).length ≤ max_entries :=
        le_trans (length_evict_expired_le c now) hlen
      have hdrop := List.length_drop ((evict_expired c now).length - max_entries + 1)
        (evict_expired c now)
      have hins := length_insertEntry_le
        ((evict_expired c now).drop ((evict_expired c now).length - max_entries + 1))
        (cache_key u r ot oid) (CacheEntry.new b now ttl)
      omega
    · rw [if_neg hfull2]
      have hins := length_insertEntry_le (evict_expired c now)
        (cache_key u r ot oid) (CacheEntry.new b now ttl)
      omega
  · rw [if_neg hfull]
    have hins := length_insertEntry_le c (cache_key u r ot oid) (CacheEntry.new b now ttl)
    omega

theorem keysNodup_set_with_ttl (max_entries : Nat) (c : Cache) (hnodup : KeysNodup c)
    (now : Nat) (u r ot oid : String) (b : Bool) (ttl : Nat) :
    KeysNodup (set_with_ttl max_entries c now u r ot oid b ttl) := by
  rw [set_with_ttl]
  apply keysNodup_insertEntry
  by_cases hfull : max_entries ≤ c.length
  · rw [if_pos hfull]
    have hnodup' : KeysNodup (evict_expired c now) :=
      keysNodup_of_sublist (removeKeys_sublist c _) hnodup
    by_cases hfull2 : max_entries ≤ (evict_expired c now).length
    · rw [if_pos hfull2]
      exact keysNodup_of_sublist (removeKeys_sublist _ _) hnodup'
    · rw [if_neg hfull2]
      exact hnodup'
  · rw [if_neg hfull]
    exact hnodup

theorem get_set_with_ttl_same_key (max_entries : Nat) (c : Cache) (t0 t1 ttl : Nat)
    (u r ot oid : String) (b : Bool) :
    get (set_with_ttl max_entries c t0 u r ot oid b ttl) t1 u r ot oid =
      if t0 + ttl < t1 then none else some b := by
  rw [set_with_ttl, get, lookupEntry, insertEntry]
  rw [List.find?_cons_of_pos _ (by simp)]
  by_cases hlt : t0 + ttl < t1
  · simp [CacheEntry.new, CacheEntry.is_expired, hlt]
  · simp [CacheEntry.new, CacheEntry.is_expired, hlt]

end PermissionCache

theorem runSets_invariant (max_entries : Nat) (hmax : 1 ≤ max_entries)
    (calls : List SetCall) :
    ∀ c : Cache, PermissionCache.KeysNodup c → c.length ≤ max_entries →
      PermissionCache.KeysNodup (runSets max_entries c calls) ∧
      (runSets max_entries c calls).length ≤ max_entries := by
  induction calls with
  | nil => exact fun c h1 h2 => ⟨h1, h2⟩
  | cons sc calls ih =>
    intro c h1 h2
    have hstep1 := PermissionCache.keysNodup_set_with_ttl max_entries c h1 sc.now
      sc.user_id sc.relation sc.object_type sc.object_id sc.allowed sc.ttl
    have hstep2 := PermissionCache.length_set_with_ttl_le max_entries hmax c h1 h2 sc.now
      sc.user_id sc.relation sc.object_type sc.object_id sc.allowed sc.ttl
    exact ih _ hstep1 hstep2

/-- Claim C2 (amended): for every configured maximum capacity of at least one
entry and every finite sequence of set / set_with_ttl calls starting from the
empty cache, after each call the number of entries is at most the maximum.
The original claim, quantified over every capacity including zero, fails:
with capacity zero the final insert still lands one entry in the map. -/
theorem runSets_capacity (max_entries : Nat) (hmax : 1 ≤ max_entries)
    (calls : List SetCall) :
    (runSets max_entries [] calls).length ≤ max_entries :=
  (runSets_invariant max_entries hmax calls []
    (by simp [PermissionCache.KeysNodup, PermissionCache.keys]) (by simp)).2

/-- Claim C2 witness: a concrete run at capacity one stays within capacity. -/
theorem runSets_capacity_witness :
    1 ≤ 1 ∧
    (runSets 1 []
      [⟨0, "u", "viewer", "document", "1", true, 5⟩,
       ⟨1, "u", "editor", "document", "2", false, 5⟩]).length ≤ 1 :=
  ⟨by decide,
   runSets_capacity 1 (by decide)
     [⟨0, "u", "viewer", "document", "1", true, 5⟩,
      ⟨1, "u", "editor", "document", "2", false, 5⟩]⟩

/-- Claim C2 counterexample: with configured capacity zero, a single set call
leaves one entry in the map, exceeding the configured maximum. -/
theorem runSets_capacity_zero_counterexample :
    (runSets 0 [] [⟨0, "u", "viewer", "document", "42", true, 5⟩]).length = 1 ∧
    ¬ (runSets 0 [] [⟨0, "u", "viewer", "document", "42", true, 5⟩]).length ≤ 0 := by
  decide

/-- Claim C3 (amended): a set_with_ttl with ttl zero is stale at every strictly
later instant, so a get at any instant after the set returns none, with no
special-casing inside set. As originally stated, down to the very same clock
instant, the claim fails: is_expired compares strictly, so at the instant of
the set itself the entry is still fresh and get returns the stored value. -/
theorem set_ttl_zero_then_get_none (max_entries : Nat) (c : Cache) (t0 t1 : Nat)
    (u r ot oid : String) (v : Bool) (h : t0 < t1) :
    PermissionCache.get (PermissionCache.set_with_ttl max_entries c t0 u r ot oid v 0)
      t1 u r ot oid = none := by
  rw [PermissionCache.get_set_with_ttl_same_key, if_pos (by omega)]

/-- Claim C3 witness: ttl zero set at instant 0, get at instant 1 misses. -/
theorem set_ttl_zero_then_get_none_witness :
    0 < 1 ∧
    PermissionCache.get
      (PermissionCache.set_with_ttl 10 [] 0 "u" "viewer" "document" "42" true 0)
      1 "u" "viewer" "document" "42" = none :=
  ⟨by decide,
   set_ttl_zero_then_get_none 10 [] 0 1 "u" "viewer" "document" "42" true (by decide)⟩

/-- Claim C3 counterexample: at the same clock instant as the ttl-zero set, the
entry is not yet expired and get returns the stored value, not none. -/
theorem set_ttl_zero_same_instant_counterexample :
    PermissionCache.get
      (PermissionCache.set_with_ttl 10 [] 0 "u" "viewer" "document" "42" true 0)
      0 "u" "viewer" "document" "42" = some true := by
  decide

/-- Claim C4: after a set_with_ttl with positive ttl, a get for the same
question at any instant not yet past the stored expiration instant returns the
stored value. In the embedding get is a pure function of the cache state and
the clock, mirroring the shared-reference read in the source, so it can
neither modify nor extend nor refresh any entry. -/
theorem set_then_get_fresh (max_entries : Nat) (c : Cache) (t0 t1 ttl : Nat)
    (u r ot oid : String) (v : Bool) (httl : 0 < ttl) (hfresh : t1 ≤ t0 + ttl) :
    PermissionCache.get (PermissionCache.set_with_ttl max_entries c t0 u r ot oid v ttl)
      t1 u r ot oid = some v := by
  rw [PermissionCache.get_set_with_ttl_same_key, if_neg (by omega)]

/-- Claim C4 witness: ttl five set at instant 0, get at instant 3 hits. -/
theorem set_then_get_fresh_witness :
    0 < 5 ∧ 3 ≤ 0 + 5 ∧
    PermissionCache.get
      (PermissionCache.set_with_ttl 10 [] 0 "u" "viewer" "document" "42" true 5)
      3 "u" "viewer" "document" "42" = some true :=
  ⟨by decide, by decide,
   set_then_get_fresh 10 [] 0 3 5 "u" "viewer" "document" "42" true (by decide) (by decide)⟩

namespace PermissionCache

theorem removeKeys_eq_filter (c : Cache) (ks : List String) :
    removeKeys c ks = c.filter (fun p => !(ks.contains p.1)) := by
  induction ks generalizing c with
  | nil => simp [removeKeys]
  | cons k ks ih =>
    rw [removeKeys_cons, ih, eraseKey, List.filter_filter]
    apply List.filter_congr
    intro p _
    show (!ks.contains p.1 && !(p.1 == k)) = !((k :: ks).contains p.1)
    rw [show (k :: ks).contains p.1 = (p.1 == k || ks.contains p.1) from rfl,
      Bool.not_or, Bool.and_comm]

theorem removeKeys_keyPred (c : Cache) (q : String → Bool) :
    removeKeys c ((c.filter (fun p => q p.1)).map Prod.fst) =
      c.filter (fun p => !(q p.1)) := by
  rw [removeKeys_eq_filter]
  apply List.filter_congr
  intro p hp
  congr 1
  by_cases hmem : p.1 ∈ (c.filter (fun p => q p.1)).map Prod.fst
  · have hq : q p.1 = true := by
      obtain ⟨b, hb, hfst⟩ := List.mem_map.mp hmem
      have hqb := (List.mem_filter.mp hb).2
      rw [← hfst]
      exact hqb
    rw [hq]
    exact List.elem_iff.mpr hmem
  · have hq : q p.1 = false := by
      cases hqq : q p.1
      · rfl
      · exact absurd (List.mem_map.mpr ⟨p, List.mem_filter.mpr ⟨hp, hqq⟩, rfl⟩) hmem
    rw [hq]
    cases hcon : ((c.filter (fun p => q p.1)).map Prod.fst).contains p.1
    · rfl
    · exact absurd (List.elem_iff.mp hcon) hmem

theorem invalidate_object_eq_filter (c : Cache) (ot oid : String) :
    invalidate_object c ot oid =
      c.filter (fun p => !(p.1.endsWith (objSuffix ot oid))) := by
  rw [invalidate_object]
  exact removeKeys_keyPred c (fun s => s.endsWith (objSuffix ot oid))

theorem find?_key_filter (c : Cache) (q : String → Bool) (k : String) :
    List.find? (fun p => p.1 == k) (c.filter (fun p => !(q p.1))) =
      if q k then none else List.find? (fun p => p.1 == k) c := by
  induction c with
  | nil => simp
  | cons p t ih =>
    rw [List.filter_cons]
    by_cases hq : q p.1 = true
    · rw [if_neg (by simp [hq]), ih]
      by_cases hpk : p.1 = k
      · subst hpk
        rw [if_pos hq, if_pos hq]
      · rw [List.find?_cons_of_neg _ (by simp [hpk])]
    · have hq' : q p.1 = false := by simpa using hq
      rw [if_pos (by simp [hq'])]
      by_cases hpk : p.1 = k
      · subst hpk
        rw [List.find?_cons_of_pos _ (by simp), List.find?_cons_of_pos _ (by simp),
          if_neg (by simp [hq'])]
      · rw [List.find?_cons_of_neg _ (by simp [hpk]),
          List.find?_cons_of_neg _ (by simp [hpk]), ih]

theorem lookupEntry_filter_key (c : Cache) (q : String → Bool) (k : String) :
    lookupEntry (c.filter (fun p => !(q p.1))) k =
      if q k then none else lookupEntry c k := by
  rw [lookupEntry, find?_key_filter]
  by_cases hqk : q k = true
  · rw [if_pos hqk, if_pos hqk]
    rfl
  · rw [if_neg hqk, if_neg hqk]
    rfl

theorem lookup_invalidate_object (c : Cache) (ot oid k : String) :
    lookupEntry (invalidate_object c ot oid) k =
      if k.endsWith (objSuffix ot oid) then none else lookupEntry c k := by
  rw [invalidate_object_eq_filter]
  exact lookupEntry_filter_key c (fun s => s.endsWith (objSuffix ot oid)) k

end PermissionCache

/-- Claim C6: invalidate_object removes exactly the entries whose key ends with
the suffix colon-type-colon-id and leaves every other entry, with its value and
expiration, unchanged: lookup after invalidation is none on matching keys and
identical to the previous lookup on every other key. -/
theorem invalidate_object_scope (c : Cache) (ot oid k : String) :
    PermissionCache.lookupEntry (PermissionCache.invalidate_object c ot oid) k =
      if k.endsWith (PermissionCache.objSuffix ot oid) then none
      else PermissionCache.lookupEntry c k :=
  PermissionCache.lookup_invalidate_object c ot oid k

/-- Claim C10: stats returns one snapshot in which total_entries is the size of
the map, expired_entries counts exactly the entries whose expiration instant
has passed, expired_entries is at most total_entries, and active_entries is
their difference, which therefore never underflows. -/
theorem stats_consistent (max_entries default_ttl : Nat) (c : Cache) (now : Nat) :
    (PermissionCache.stats max_entries default_ttl c now).total_entries = c.length ∧
    (PermissionCache.stats max_entries default_ttl c now).expired_entries =
      (c.filter (fun p => p.2.is_expired now)).length ∧
    (PermissionCache.stats max_entries default_ttl c now).expired_entries ≤
      (PermissionCache.stats max_entries default_ttl c now).total_entries ∧
    (PermissionCache.stats max_entries default_ttl c now).active_entries =
      (PermissionCache.stats max_entries default_ttl c now).total_entries -
        (PermissionCache.stats max_entries default_ttl c now).expired_entries :=
  ⟨rfl, rfl, List.length_filter_le _ c, rfl⟩

/-- Authorization result (AuthorizationResult in src/auth/models.rs). -/
structure AuthorizationResult where
  allowed : Bool
  reason : Option String
  deriving Repr, DecidableEq

/-- Relationship tuple key sent to the engine (TupleKey in src/auth/openfga.rs). -/
structure TupleKey where
  user : String
  relation : String
  object : String
  deriving Repr, DecidableEq

/-- Check endpoint response body (CheckResponse in src/auth/openfga.rs). -/
structure CheckResponse where
  allowed : Bool
  resolution : Option String
  deriving Repr, DecidableEq

/-- Outcome of one HTTP exchange with the remote engine, as the client code
observes it: either the send itself failed in transport, or a response arrived
carrying a status code, the error body text (read in the non-2xx branch) and,
for endpoints that parse a JSON body, the parse outcome of that body. -/
inductive Transport (α : Type) where
  | failed (msg : String)
  | responded (status : Nat) (text : String) (body : Except String α)
  deriving Repr

/-- reqwest StatusCode::is_success: a 2xx status. -/
def statusIsSuccess (s : Nat) : Bool := 200 ≤ s && s < 300

namespace OpenFgaService

/-- OpenFgaService::check_permission (src/auth/openfga.rs): consult the cache;
on a hit return the cached decision; on a miss consult the remote reply; a
transport failure or non-2xx status or unparseable body is an Internal error
and the cache is returned as it was; a parsed answer is stored with the
default ttl and returned. The service's cache configuration and the clock
instant are explicit arguments. -/
def check_permission (max_entries default_ttl : Nat) (c : Cache) (now : Nat)
    (user_id relation object_type object_id : String)
    (reply : Transport CheckResponse) : Except AppError AuthorizationResult × Cache :=
  match PermissionCache.get c now user_id relation object_type object_id with
  | some cached_result =>
      (.ok { allowed := cached_result
             reason := if cached_result then none
                       else some "Permission denied (cached)" }, c)
  | none =>
    match reply with
    | .failed e => (.error (.Internal ("OpenFGA request failed: " ++ e)), c)
    | .responded status text body =>
      if !(statusIsSuccess status) then
        (.error (.Internal
          ("OpenFGA check failed with status " ++ toString status ++ ": " ++ text)), c)
      else
        match body with
        | .error e =>
            (.error (.Internal ("Failed to parse OpenFGA response: " ++ e)), c)
        | .ok check_response =>
            (.ok { allowed := check_response.allowed
                   reason := if check_response.allowed then none
                             else some "Permission denied by OpenFGA" },
             PermissionCache.set max_entries default_ttl c now user_id relation
               object_type object_id check_response.allowed)

/-- The tuple key built for a relationship call. -/
def tuple_key_for (user_id relation object_type object_id : String) : TupleKey :=
  { user := "user:" ++ user_id
    relation := relation
    object := object_type ++ ":" ++ object_id }

/-- OpenFgaService::write_relationship: send the tuple in the writes slot; on a
2xx response invalidate the cache for the object and return success; a
transport failure or non-2xx status is an Internal error and the cache is
returned as it was. The response body is never parsed. -/
def write_relationship (c : Cache) (user_id relation object_type object_id : String)
    (reply : Transport Unit) : Except AppError Unit × Cache :=
  match reply with
  | .failed e => (.error (.Internal ("OpenFGA write request failed: " ++ e)), c)
  | .responded status text _ =>
    if !(statusIsSuccess status) then
      (.error (.Internal
        ("OpenFGA write failed with status " ++ toString status ++ ": " ++ text)), c)
    else
      (.ok (), PermissionCache.invalidate_object c object_type object_id)

/-- OpenFgaService::delete_relationship: identical shape to write_relationship
with the tuple in the deletes slot and delete-flavoured error messages. -/
def delete_relationship (c : Cache) (user_id relation object_type object_id : String)
    (reply : Transport Unit) : Except AppError Unit × Cache :=
  match reply with
  | .failed e => (.error (.Internal ("OpenFGA delete request failed: " ++ e)), c)
  | .responded status text _ =>
    if !(statusIsSuccess status) then
      (.error (.Internal
        ("OpenFGA delete failed with status " ++ toString status ++ ": " ++ text)), c)
    else
      (.ok (), PermissionCache.invalidate_object c object_type object_id)

/-- OpenFgaService::batch_write_relationships: an empty list short-circuits to
success; otherwise the objects_to_invalidate list is collected from the tuples
in order, all tuples are sent as one request, and on a 2xx response
invalidate_object is called once per collected pair. Besides the result and
the cache, the returned triple records the list of (object_type, object_id)
arguments passed to invalidate_object, in order: the invalidation trace. -/
def batch_write_relationships (c : Cache)
    (relationships : List (String × String × String × String))
    (reply : Transport Unit) :
    Except AppError Unit × Cache × List (String × String) :=
  if relationships.isEmpty then (.ok (), c, [])
  else
    let objects_to_invalidate : List (String × String) :=
      relationships.map (fun r => (r.2.2.1, r.2.2.2))
    match reply with
    | .failed e => (.error (.Internal ("OpenFGA batch write failed: " ++ e)), c, [])
    | .responded status text _ =>
      if !(statusIsSuccess status) then
        (.error (.Internal
          ("OpenFGA batch write failed with status " ++ toString status ++ ": " ++ text)),
         c, [])
      else
        (.ok (),
         objects_to_invalidate.foldl
           (fun cc p => PermissionCache.invalidate_object cc p.1 p.2) c,
         objects_to_invalidate)

end OpenFgaService

/-- Claim C1: on a cache miss for the question, a transport failure or a
non-2xx response from the check endpoint makes check_permission return an
Internal error carrying the failure text, or the status and body text, and the
returned cache is exactly the one passed in: no entry is inserted, updated or
removed for the question, so a failure is never memorized as a denial or an
allowance. -/
theorem check_permission_failure_uncached (max_entries default_ttl : Nat)
    (c : Cache) (now : Nat) (u r ot oid : String)
    (hmiss : PermissionCache.get c now u r ot oid = none) :
    (∀ e, OpenFgaService.check_permission max_entries default_ttl c now u r ot oid
        (.failed e) = (.error (.Internal ("OpenFGA request failed: " ++ e)), c)) ∧
    (∀ status text body, statusIsSuccess status = false →
      OpenFgaService.check_permission max_entries default_ttl c now u r ot oid
        (.responded status text body) =
        (.error (.Internal
          ("OpenFGA check failed with status " ++ toString status ++ ": " ++ text)),
         c)) := by
  constructor
  · intro e
    simp [OpenFgaService.check_permission, hmiss]
  · intro status text body hs
    simp [OpenFgaService.check_permission, hmiss, hs]

/-- Claim C1 witness: against the empty cache, a transport failure and an
HTTP 500 check response each surface as an error and leave the cache empty. -/
theorem check_permission_failure_uncached_witness :
    PermissionCache.get [] 0 "u" "viewer" "document" "42" = none ∧
    OpenFgaService.check_permission 10 300 [] 0 "u" "viewer" "document" "42"
      (.failed "connection refused") =
      (.error (.Internal ("OpenFGA request failed: " ++ "connection refused")), []) ∧
    statusIsSuccess 500 = false ∧
    OpenFgaService.check_permission 10 300 [] 0 "u" "viewer" "document" "42"
      (.responded 500 "Internal Server Error" (.error "unread")) =
      (.error (.Internal
        ("OpenFGA check failed with status " ++ toString 500 ++ ": "
          ++ "Internal Server Error")), []) :=
  ⟨by decide,
   (check_permission_failure_uncached 10 300 [] 0 "u" "viewer" "document" "42"
     (by decide)).1 "connection refused",
   by decide,
   (check_permission_failure_uncached 10 300 [] 0 "u" "viewer" "document" "42"
     (by decide)).2 500 "Internal Server Error" (.error "unread") (by decide)⟩

/-- Claim C7: for every relationship tuple, a successful (2xx) remote write
makes write_relationship invalidate every cache entry whose key carries that
(object_type, object_id) suffix before returning success, and a transport
failure or non-2xx response returns an error with the cache exactly as it was;
delete_relationship behaves identically. The final conjunct pins down the
invalidation: after it, lookup is none exactly on the keys with the object
suffix and unchanged elsewhere. -/
theorem write_delete_relationship_cache_effect (c : Cache) (u r ot oid : String) :
    (∀ e, OpenFgaService.write_relationship c u r ot oid (.failed e) =
       (.error (.Internal ("OpenFGA write request failed: " ++ e)), c)) ∧
    (∀ s t b, statusIsSuccess s = false →
       OpenFgaService.write_relationship c u r ot oid (.responded s t b) =
       (.error (.Internal
         ("OpenFGA write failed with status " ++ toString s ++ ": " ++ t)), c)) ∧
    (∀ s t b, statusIsSuccess s = true →
       OpenFgaService.write_relationship c u r ot oid (.responded s t b) =
       (.ok (), PermissionCache.invalidate_object c ot oid)) ∧
    (∀ e, OpenFgaService.delete_relationship c u r ot oid (.failed e) =
       (.error (.Internal ("OpenFGA delete request failed: " ++ e)), c)) ∧
    (∀ s t b, statusIsSuccess s = false →
       OpenFgaService.delete_relationship c u r ot oid (.responded s t b) =
       (.error (.Internal
         ("OpenFGA delete failed with status " ++ toString s ++ ": " ++ t)), c)) ∧
    (∀ s t b, statusIsSuccess s = true →
       OpenFgaService.delete_relationship c u r ot oid (.responded s t b) =
       (.ok (), PermissionCache.invalidate_object c ot oid)) ∧
    (∀ k, PermissionCache.lookupEntry (PermissionCache.invalidate_object c ot oid) k =
       if k.endsWith (PermissionCache.objSuffix ot oid) then none
       else PermissionCache.lookupEntry c k) := by
  refine ⟨fun e => rfl, ?_, ?_, fun e => rfl, ?_, ?_,
    fun k => PermissionCache.lookup_invalidate_object c ot oid k⟩
  all_goals intro s t b hs
  all_goals simp [OpenFgaService.write_relationship,
    OpenFgaService.delete_relationship, hs]

/-- Claim C7 witness: on a one-entry cache, a 2xx write invalidates the object
and a 500 delete returns an error with the cache untouched. -/
theorem write_delete_relationship_cache_effect_witness :
    statusIsSuccess 200 = true ∧ statusIsSuccess 500 = false ∧
    OpenFgaService.write_relationship [("u:viewer:document:42", ⟨true, 100⟩)]
      "u" "editor" "document" "42" (.responded 200 "" (.ok ())) =
      (.ok (), PermissionCache.invalidate_object
        [("u:viewer:document:42", ⟨true, 100⟩)] "document" "42") ∧
    OpenFgaService.delete_relationship [("u:viewer:document:42", ⟨true, 100⟩)]
      "u" "editor" "document" "42" (.responded 500 "boom" (.ok ())) =
      (.error (.Internal
        ("OpenFGA delete failed with status " ++ toString 500 ++ ": " ++ "boom")),
       [("u:viewer:document:42", ⟨true, 100⟩)]) :=
  ⟨by decide, by decide,
   (write_delete_relationship_cache_effect [("u:viewer:document:42", ⟨true, 100⟩)]
     "u" "editor" "document" "42").2.2.1 200 "" (.ok ()) (by decide),
   (write_delete_relationship_cache_effect [("u:viewer:document:42", ⟨true, 100⟩)]
     "u" "editor" "document" "42").2.2.2.2.1 500 "boom" (.ok ()) (by decide)⟩

theorem foldl_invalidate_eq_filter (pairs : List (String × String)) (c : Cache) :
    pairs.foldl (fun cc p => PermissionCache.invalidate_object cc p.1 p.2) c =
      c.filter (fun e =>
        !(pairs.any (fun p => e.1.endsWith (PermissionCache.objSuffix p.1 p.2)))) := by
  induction pairs generalizing c with
  | nil => simp
  | cons p ps ih =>
    rw [List.foldl_cons, ih, PermissionCache.invalidate_object_eq_filter,
      List.filter_filter]
    apply List.filter_congr
    intro e _
    show (!(ps.any fun q => e.1.endsWith (PermissionCache.objSuffix q.1 q.2)) &&
          !(e.1.endsWith (PermissionCache.objSuffix p.1 p.2))) =
         !((p :: ps).any fun q => e.1.endsWith (PermissionCache.objSuffix q.1 q.2))
    rw [List.any_cons, Bool.not_or, Bool.and_comm]

theorem lookup_foldl_invalidate (pairs : List (String × String)) (c : Cache)
    (k : String) :
    PermissionCache.lookupEntry
      (pairs.foldl (fun cc p => PermissionCache.invalidate_object cc p.1 p.2) c) k =
      if pairs.any (fun p => k.endsWith (PermissionCache.objSuffix p.1 p.2)) then none
      else PermissionCache.lookupEntry c k := by
  rw [foldl_invalidate_eq_filter]
  exact PermissionCache.lookupEntry_filter_key c
    (fun s => pairs.any (fun p => s.endsWith (PermissionCache.objSuffix p.1 p.2))) k

/-- Claim C8 (amended): batch_write_relationships returns success with no cache
change and no invalidation for the empty list, whatever the transport would
have answered; on a non-empty list a transport failure or non-2xx response is
an error with the cache unchanged and no invalidation; on a 2xx response it
returns success and calls invalidate_object once per tuple, in list order and
without deduplication, so a duplicated (object_type, object_id) pair is
invalidated repeatedly rather than once; because invalidation removes entries
by key suffix, the resulting cache nevertheless equals the deduplicated
invalidation: an entry survives exactly when its key matches none of the pairs
in the list. -/
theorem batch_write_relationships_spec (c : Cache)
    (rels : List (String × String × String × String)) :
    (∀ reply, OpenFgaService.batch_write_relationships c [] reply = (.ok (), c, [])) ∧
    (rels ≠ [] → ∀ e,
       OpenFgaService.batch_write_relationships c rels (.failed e) =
       (.error (.Internal ("OpenFGA batch write failed: " ++ e)), c, [])) ∧
    (rels ≠ [] → ∀ s t b, statusIsSuccess s = false →
       OpenFgaService.batch_write_relationships c rels (.responded s t b) =
       (.error (.Internal
         ("OpenFGA batch write failed with status " ++ toString s ++ ": " ++ t)),
        c, [])) ∧
    (rels ≠ [] → ∀ s t b, statusIsSuccess s = true →
       (OpenFgaService.batch_write_relationships c rels (.responded s t b)).1 =
         .ok () ∧
       (OpenFgaService.batch_write_relationships c rels (.responded s t b)).2.2 =
         rels.map (fun r => (r.2.2.1, r.2.2.2)) ∧
       (∀ k, PermissionCache.lookupEntry
           (OpenFgaService.batch_write_relationships c rels (.responded s t b)).2.1 k =
         if (rels.map (fun r => (r.2.2.1, r.2.2.2))).any
              (fun p => k.endsWith (PermissionCache.objSuffix p.1 p.2)) then none
         else PermissionCache.lookupEntry c k)) := by
  refine ⟨fun reply => rfl, ?_, ?_, ?_⟩
  · intro hne e
    simp [OpenFgaService.batch_write_relationships, List.isEmpty_eq_false.mpr hne]
  · intro hne s t b hs
    simp [OpenFgaService.batch_write_relationships, List.isEmpty_eq_false.mpr hne, hs]
  · intro hne s t b hs
    have hred : OpenFgaService.batch_write_relationships c rels (.responded s t b) =
        (.ok (),
         (rels.map (fun r => (r.2.2.1, r.2.2.2))).foldl
           (fun cc p => PermissionCache.invalidate_object cc p.1 p.2) c,
         rels.map (fun r => (r.2.2.1, r.2.2.2))) := by
      simp [OpenFgaService.batch_write_relationships, List.isEmpty_eq_false.mpr hne, hs]
    rw [hred]
    exact ⟨rfl, rfl, fun k =>
      lookup_foldl_invalidate (rels.map (fun r => (r.2.2.1, r.2.2.2))) c k⟩

/-- Claim C8 witness: the empty list short-circuits even when transport would
fail, and a successful two-tuple batch touching one shared object yields
success with the recorded trace. -/
theorem batch_write_relationships_spec_witness :
    OpenFgaService.batch_write_relationships [("u:viewer:document:42", ⟨true, 100⟩)]
      [] (.failed "down") =
      (.ok (), [("u:viewer:document:42", ⟨true, 100⟩)], []) ∧
    ([("u1", "viewer", "document", "42"), ("u2", "editor", "document", "42")] ≠
      ([] : List (String × String × String × String))) ∧
    statusIsSuccess 200 = true ∧
    (OpenFgaService.batch_write_relationships [("u:viewer:document:42", ⟨true, 100⟩)]
      [("u1", "viewer", "document", "42"), ("u2", "editor", "document", "42")]
      (.responded 200 "" (.ok ()))).1 = .ok () ∧
    (OpenFgaService.batch_write_relationships [("u:viewer:document:42", ⟨true, 100⟩)]
      [("u1", "viewer", "document", "42"), ("u2", "editor", "document", "42")]
      (.responded 200 "" (.ok ()))).2.2 =
      [("u1", "viewer", "document", "42"), ("u2", "editor", "document", "42")].map
        (fun r => (r.2.2.1, r.2.2.2)) :=
  ⟨(batch_write_relationships_spec [("u:viewer:document:42", ⟨true, 100⟩)]
      [("u1", "viewer", "document", "42"), ("u2", "editor", "document", "42")]).1
      (.failed "down"),
   by decide, by decide,
   ((batch_write_relationships_spec [("u:viewer:document:42", ⟨true, 100⟩)]
      [("u1", "viewer", "document", "42"), ("u2", "editor", "document", "42")]).2.2.2
      (by decide) 200 "" (.ok ()) (by decide)).1,
   ((batch_write_relationships_spec [("u:viewer:document:42", ⟨true, 100⟩)]
      [("u1", "viewer", "document", "42"), ("u2", "editor", "document", "42")]).2.2.2
      (by decide) 200 "" (.ok ()) (by decide)).2.1⟩

/-- Claim C8 counterexample: on a successful batch write of two tuples sharing
one (object_type, object_id) pair, invalidate_object is called twice for that
pair, not once: the sequence of invalidations is not deduplicated. -/
theorem batch_write_dedup_counterexample :
    (OpenFgaService.batch_write_relationships []
      [("u1", "viewer", "document", "42"), ("u2", "editor", "document", "42")]
      (.responded 200 "" (.ok ()))).2.2 =
      [("document", "42"), ("document", "42")] ∧
    ((OpenFgaService.batch_write_relationships []
      [("u1", "viewer", "document", "42"), ("u2", "editor", "document", "42")]
      (.responded 200 "" (.ok ()))).2.2).count ("document", "42") = 2 := by
  decide

/-- Modelled from the spec: a principal identifier (uuid::Uuid, an external
crate) is an opaque unique ID, identified here with its canonical hyphenated
rendering: 36 characters, with a hyphen at positions 8, 13, 18 and 23 and a
lowercase hexadecimal digit everywhere else. Display is the identity on this
form. -/
def isCanonicalUuid (s : String) : Bool :=
  s.length == 36 &&
  s.data.enum.all (fun ic =>
    if ic.1 == 8 || ic.1 == 13 || ic.1 == 18 || ic.1 == 23 then ic.2 == '-'
    else (ic.2.isDigit || (decide ('a' ≤ ic.2) && decide (ic.2 ≤ 'f'))))

/-- Modelled from the spec: uuid::Uuid::parse_str succeeds exactly on a
well-formed unique ID and returns that ID. -/
def uuidParse (s : String) : Option String :=
  if isCanonicalUuid s then some s else none

/-- JWT claims structure (Claims in src/auth/models.rs). -/
structure Claims where
  sub : String
  email : String
  username : String
  roles : List String
  exp : Nat
  iat : Nat
  deriving Repr, DecidableEq

/-- Authentication context (AuthContext in src/auth/models.rs). -/
structure AuthContext where
  user_id : String
  email : String
  username : String
  roles : List String
  deriving Repr, DecidableEq

/-- Modelled from the spec: the external JWT codec (jsonwebtoken crate) is not
part of src. Per the spec, issue signs a claims structure with the symmetric
process key, and verify checks the signature and that the current time is
before expires-at. A token issued by this service therefore always carries its
claims and passes the signature check, and verification fails exactly when the
current time is not before exp. -/
structure Token where
  claims : Claims
  deriving Repr, DecidableEq

/-- Modelled from the spec: signing a claims structure with the process key. -/
def encodeToken (claims : Claims) : Token :=
  { claims := claims }

/-- Modelled from the spec: signature check plus expiry validation, the
current time must be before expires-at. -/
def decodeToken (token : Token) (now : Nat) : Except String Claims :=
  if now < token.claims.exp then .ok token.claims else .error "ExpiredSignature"

namespace JwtService

/-- JwtService::generate_token (src/auth/jwt.rs): claims carrying the rendered
user id as subject, the inputs verbatim, exp = now plus expiration_hours hours
in seconds, iat = now, signed with the key. -/
def generate_token (expiration_hours : Nat) (now : Nat)
    (user_id email username : String) (roles : List String) : Token :=
  encodeToken
    { sub := user_id
      email := email
      username := username
      roles := roles
      exp := now + expiration_hours * 3600
      iat := now }

/-- JwtService::validate_token: decode with expiry validation; any decode
failure becomes an Authentication error. -/
def validate_token (token : Token) (now : Nat) : Except AppError Claims :=
  match decodeToken token now with
  | .ok claims => .ok claims
  | .error e => .error (.Authentication ("Invalid token: " ++ e))

/-- JwtService::extract_auth_context: validate, then parse the subject back
into a user id; a malformed subject is an Authentication error. -/
def extract_auth_context (token : Token) (now : Nat) : Except AppError AuthContext :=
  match validate_token token now with
  | .error e => .error e
  | .ok claims =>
    match uuidParse claims.sub with
    | none => .error (.Authentication "Invalid user ID in token")
    | some user_id =>
        .ok { user_id := user_id
              email := claims.email
              username := claims.username
              roles := claims.roles }

/-- JwtService::extract_token_from_header: require the literal case-sensitive
Bearer-space lead-in and return the remainder of the header after those seven
characters. The starts_with byte-prefix test of the source is modelled as the
character-prefix test on the decoded strings, which agrees with it on valid
UTF-8. -/
def extract_token_from_header (auth_header : String) : Except AppError String :=
  if !("Bearer ".data.isPrefixOf auth_header.data) then
    .error (.Authentication "Invalid authorization header format")
  else
    .ok (auth_header.drop 7)

end JwtService

/-- Claim C5: for every canonical principal identifier, email, username, role
list and positive token ttl, extracting the auth context from a freshly
generated token at any instant before the expiration instant returns exactly
the input fields, and doing so at any instant after the expiration instant
fails with an Authentication error for the expired token. -/
theorem token_round_trip (expiration_hours now t : Nat)
    (uid email username : String) (roles : List String)
    (huuid : isCanonicalUuid uid = true) (hpos : 0 < expiration_hours) :
    (t < now + expiration_hours * 3600 →
      JwtService.extract_auth_context
        (JwtService.generate_token expiration_hours now uid email username roles) t =
        .ok { user_id := uid, email := email, username := username, roles := roles }) ∧
    (now + expiration_hours * 3600 < t →
      JwtService.extract_auth_context
        (JwtService.generate_token expiration_hours now uid email username roles) t =
        .error (.Authentication ("Invalid token: " ++ "ExpiredSignature"))) := by
  constructor
  · intro hlt
    simp [JwtService.extract_auth_context, JwtService.validate_token,
      JwtService.generate_token, encodeToken, decodeToken, hlt, uuidParse, huuid]
  · intro hgt
    have hnot : ¬ t < now + expiration_hours * 3600 := by omega
    simp [JwtService.extract_auth_context, JwtService.validate_token,
      JwtService.generate_token, encodeToken, decodeToken, hnot]

/-- Claim C5 witness: a concrete canonical id round-trips before expiry and is
rejected after it. -/
theorem token_round_trip_witness :
    isCanonicalUuid "123e4567-e89b-12d3-a456-426614174000" = true ∧ 0 < 1 ∧
    100 < 0 + 1 * 3600 ∧ 0 + 1 * 3600 < 4000 ∧
    JwtService.extract_auth_context
      (JwtService.generate_token 1 0 "123e4567-e89b-12d3-a456-426614174000"
        "a@b.c" "alice" ["admin"]) 100 =
      .ok { user_id := "123e4567-e89b-12d3-a456-426614174000", email := "a@b.c",
            username := "alice", roles := ["admin"] } ∧
    JwtService.extract_auth_context
      (JwtService.generate_token 1 0 "123e4567-e89b-12d3-a456-426614174000"
        "a@b.c" "alice" ["admin"]) 4000 =
      .error (.Authentication ("Invalid token: " ++ "ExpiredSignature")) :=
  ⟨by decide, by decide, by decide, by decide,
   (token_round_trip 1 0 100 "123e4567-e89b-12d3-a456-426614174000" "a@b.c" "alice"
     ["admin"] (by decide) (by decide)).1 (by decide),
   (token_round_trip 1 0 4000 "123e4567-e89b-12d3-a456-426614174000" "a@b.c" "alice"
     ["admin"] (by decide) (by decide)).2 (by decide)⟩

/-- Claim C9: extract_token_from_header succeeds exactly when the header starts
with the literal case-sensitive seven-character Bearer-space lead-in, returning
everything after those seven characters, and fails with the authentication
bad-header error otherwise; the listed examples behave as claimed. In the
embedding the function is pure, mirroring the borrowed-slice return in the
source. -/
theorem extract_token_from_header_spec (h : String) :
    JwtService.extract_token_from_header h =
      (if "Bearer ".data.isPrefixOf h.data then .ok (h.drop 7)
       else .error (.Authentication "Invalid authorization header format")) ∧
    JwtService.extract_token_from_header "Bearer abc.def.ghi" = .ok "abc.def.ghi" ∧
    JwtService.extract_token_from_header "Basic xyz" =
      .error (.Authentication "Invalid authorization header format") ∧
    JwtService.extract_token_from_header "abc.def.ghi" =
      .error (.Authentication "Invalid authorization header format") := by
  refine ⟨?_, ?_, ?_, ?_⟩
  · by_cases hb : ("Bearer ".data.isPrefixOf h.data) = true
    · rw [if_pos hb]
      simp [JwtService.extract_token_from_header, hb]
    · rw [if_neg hb]
      simp [JwtService.extract_token_from_header, hb]
  · show JwtService.extract_token_from_header "Bearer abc.def.ghi" = .ok "abc.def.ghi"
    rw [JwtService.extract_token_from_header, if_neg (by decide),
      show ("Bearer abc.def.ghi".drop 7) = "abc.def.ghi" from by decide]
  · show JwtService.extract_token_from_header "Basic xyz" =
      .error (.Authentication "Invalid authorization header format")
    rw [JwtService.extract_token_from_header, if_pos (by decide)]
  · show JwtService.extract_token_from_header "abc.def.ghi" =
      .error (.Authentication "Invalid authorization header format")
    rw [JwtService.extract_token_from_header, if_pos (by decide)]
